import Mathlib

/-!
Verification of the trust-minimized task marketplace (uAgents demo).

Shallow embedding of the job-lifecycle core:
  * `src/utils/crypto.py` — terms hashing, HMAC signatures, job-id generation
  * `src/utils/state_manager.py` — the SQLite-backed job store (keyed records,
    partial field updates)
  * `src/tool/github_tool_agent.py` — tool-side handlers (quote, perform, bond)
  * `src/client/marketplace_client_agent.py` — client-side handlers (quote
    response / accept, receipt, verify-and-pay, timeout sweep)

External collaborators (hashlib.sha256, hmac, the GitHub API, the ledger and
the HTTP verifier) are modelled as explicit function parameters or oracle
arguments: the lifecycle logic itself is translated statement by statement.
Timestamps are modelled as natural numbers (seconds); `datetime` subtraction
and `timedelta.seconds` are modelled explicitly where a handler uses them.
-/

namespace Marketplace

/-! ### JSON payload values

Payloads occurring in the repository are flat string-keyed maps whose values
are strings, integers, or lists of strings (e.g. `labels`).  A payload keeps
its Python dict insertion order; JSON serialization sorts the keys. -/

inductive PVal where
  | s (v : String)
  | i (v : Int)
  | arr (vs : List String)
deriving DecidableEq

abbrev Payload := List (String × PVal)

/-! ### `json.dumps(..., sort_keys=True, separators=(',', ':'))`

Canonical serializer used by `compute_terms_hash` (src/utils/crypto.py:37).
The output is a character list; `ensure_ascii`-style escaping is modelled for
control and non-ASCII characters. -/

def hexDigitChar (n : Nat) : Char :=
  if n < 10 then Char.ofNat (48 + n) else Char.ofNat (87 + n)

def hex4 (n : Nat) : List Char :=
  [hexDigitChar (n / 4096 % 16), hexDigitChar (n / 256 % 16),
   hexDigitChar (n / 16 % 16), hexDigitChar (n % 16)]

def escChar (c : Char) : List Char :=
  if c = '"' then ['\\', '"']
  else if c = '\\' then ['\\', '\\']
  else if c = '\n' then ['\\', 'n']
  else if c = '\t' then ['\\', 't']
  else if c = '\r' then ['\\', 'r']
  else if c.toNat < 32 || c.toNat > 126 then '\\' :: 'u' :: hex4 c.toNat
  else [c]

def escString (s : String) : List Char :=
  s.data.foldr (fun c acc => escChar c ++ acc) []

/-- JSON string literal: `"…"` with escaping. -/
def jstr (s : String) : List Char :=
  '"' :: escString s ++ ['"']

def digitChar (d : Nat) : Char := Char.ofNat (48 + d)

def natChars (n : Nat) : List Char :=
  if _h : n < 10 then [digitChar n]
  else natChars (n / 10) ++ [digitChar (n % 10)]
decreasing_by exact Nat.div_lt_self (by omega) (by omega)

def intChars (i : Int) : List Char :=
  if i < 0 then '-' :: natChars i.natAbs else natChars i.toNat

def joinComma : List (List Char) → List Char
  | [] => []
  | [x] => x
  | x :: xs => x ++ ',' :: joinComma xs

def dumpPVal : PVal → List Char
  | .s v => jstr v
  | .i v => intChars v
  | .arr vs => '[' :: joinComma (vs.map jstr) ++ [']']

/-- Key ordering used by `sort_keys=True`. -/
def keyLe (a b : String × PVal) : Prop := a.1 ≤ b.1

instance : DecidableRel keyLe := fun a b => inferInstanceAs (Decidable (a.1 ≤ b.1))

instance : IsTotal (String × PVal) keyLe := ⟨fun a b => le_total a.1 b.1⟩

instance : IsTrans (String × PVal) keyLe := ⟨fun _ _ _ hab hbc => le_trans hab hbc⟩

def sortKeys (p : Payload) : Payload := List.insertionSort keyLe p

/-- Serialization of a payload dict: keys canonically sorted, `,`/`:`
separators, no whitespace. -/
def dumpPayload (p : Payload) : List Char :=
  '\x7b' :: joinComma ((sortKeys p).map fun kv => jstr kv.1 ++ ':' :: dumpPVal kv.2) ++ ['\x7d']

/-- The `terms` dictionary built inside `compute_terms_hash`
(src/utils/crypto.py:27-34): fixed keys `task, payload, price, denom, ttl,
bond_required`. -/
structure QuoteData where
  task : String
  payload : Payload
  price : Int
  denom : String
  ttl : Int
  bond_required : Int

/-- `json.dumps(terms, sort_keys=True, separators=(',', ':'))`: the six fixed
keys appear in their sorted order
`bond_required < denom < payload < price < task < ttl`. -/
def termsJson (qd : QuoteData) : List Char :=
  '\x7b' :: joinComma
    [jstr "bond_required" ++ ':' :: intChars qd.bond_required,
     jstr "denom" ++ ':' :: jstr qd.denom,
     jstr "payload" ++ ':' :: dumpPayload qd.payload,
     jstr "price" ++ ':' :: intChars qd.price,
     jstr "task" ++ ':' :: jstr qd.task,
     jstr "ttl" ++ ':' :: intChars qd.ttl] ++ ['\x7d']

/-- `compute_terms_hash` (src/utils/crypto.py:16-40).  `sha256hex` stands for
`hashlib.sha256(·).hexdigest()`, an external pure function of the serialized
bytes. -/
def compute_terms_hash (sha256hex : List Char → String) (qd : QuoteData) : String :=
  sha256hex (termsJson qd)

/-! ### Signatures and job ids (src/utils/crypto.py) -/

/-- `sign_message` (src/utils/crypto.py:43-61): HMAC-SHA256 of the message
keyed by the shared secret; `hmacSha256` stands for the `hmac` library
primitive (key, message) ↦ hex digest. -/
def sign_message (hmacSha256 : String → String → String) (message privateKey : String) : String :=
  hmacSha256 privateKey message

/-- `create_job_signature` (src/utils/crypto.py:84-99):
message `job_id|output_ref|timestamp_iso`. -/
def create_job_signature (hmacSha256 : String → String → String)
    (jobId outputRef tsIso privateKey : String) : String :=
  sign_message hmacSha256 (jobId ++ "|" ++ outputRef ++ "|" ++ tsIso) privateKey

/-- `create_client_signature` (src/utils/crypto.py:133-147):
message `job_id|terms_hash|timestamp_iso`. -/
def create_client_signature (hmacSha256 : String → String → String)
    (jobId termsHash tsIso privateKey : String) : String :=
  sign_message hmacSha256 (jobId ++ "|" ++ termsHash ++ "|" ++ tsIso) privateKey

/-- `generate_job_id` (src/utils/crypto.py:121-130).  The source reads
`datetime.utcnow().isoformat()` (here the argument `ts`, the observed clock
reading) and derives the id as
`"job_" + sha256(f"{ts}|{hash(ts)}").digest()[:8].hex()`.
`sha256hex8` stands for the external digest-and-truncate, `pyHash` for the
process-wide Python `hash` on strings (deterministic within one process). -/
def generate_job_id (sha256hex8 : String → String) (pyHash : String → Int)
    (ts : String) : String :=
  "job_" ++ sha256hex8 (ts ++ "|" ++ toString (pyHash ts))

/-! ### Data model (src/models/messages.py) -/

inductive TaskType where
  | create_github_issue
  | translate_text
  | get_weather
deriving DecidableEq

/-- `TaskType.value` strings. -/
def TaskType.value : TaskType → String
  | .create_github_issue => "create_github_issue"
  | .translate_text => "translate_text"
  | .get_weather => "get_weather"

inductive JobStatus where
  | requested
  | quoted
  | accepted
  | bonded
  | in_progress
  | completed
  | verified
  | paid
  | failed
  | cancelled
deriving DecidableEq

structure Receipt where
  job_id : String
  output_ref : String
  verifier_url : String
  timestamp : Nat
  tool_signature : String
deriving DecidableEq

structure VerificationResult where
  job_id : String
  verified : Bool
  details : String
  timestamp : Nat
deriving DecidableEq

structure QuoteRequest where
  task : TaskType
  payload : Payload
  client_address : String
  timestamp : Nat
deriving DecidableEq

/-- `QuoteResponse`: the pydantic model declares
`job_id, price, denom, ttl, terms_hash, bond_required, tool_address,
timestamp`; the tool agents additionally attach `task` and `tool_pubkey`,
which the client reads as optional attributes. -/
structure QuoteResponse where
  job_id : String
  task : Option TaskType
  price : Int
  denom : String
  ttl : Int
  terms_hash : String
  bond_required : Int
  tool_address : String
  tool_pubkey : Option String
  timestamp : Nat
deriving DecidableEq

structure PerformRequest where
  job_id : String
  payload : Payload
  terms_hash : String
  client_signature : String
  timestamp : Nat
deriving DecidableEq

structure BondNotification where
  job_id : String
  tx_hash : String
  amount : Int
  sender : String
  timestamp : Nat
deriving DecidableEq

structure PaymentNotification where
  job_id : String
  tx_hash : String
  amount : Int
  sender : String
  timestamp : Nat
deriving DecidableEq

/-- `JobRecord` (src/models/messages.py:141-169).  The address and amount
fields are `Optional` in the pydantic model but are always set by both
creation sites (tool quote handler, client quote-response handler), so they
are modelled as required.  Timestamps not set yet are `none`. -/
structure JobRecord where
  job_id : String
  task : TaskType
  payload : Payload
  status : JobStatus
  client_address : String
  tool_address : String
  price : Int
  bond_amount : Int
  quote_timestamp : Option Nat
  perform_timestamp : Option Nat
  completion_timestamp : Option Nat
  verification_timestamp : Option Nat
  payment_timestamp : Option Nat
  receipt : Option Receipt
  verification_result : Option VerificationResult
  notes : String
deriving DecidableEq

/-! ### Job store (src/utils/state_manager.py)

The SQLite table keyed by `job_id` (PRIMARY KEY), with partial `UPDATE`s
that only touch the supplied columns. -/

abbrev Store := List (String × JobRecord)

/-- `get_job` (state_manager.py:171-193): `SELECT * WHERE job_id = ?`. -/
def get_job : Store → String → Option JobRecord
  | [], _ => none
  | (k, j) :: rest, id => if k = id then some j else get_job rest id

/-- A partial update dictionary as passed to `update_job`: only the fields a
caller ever includes are represented; `none` means "column not in the dict". -/
structure JobUpdate where
  status : Option JobStatus := none
  payload : Option Payload := none
  perform_timestamp : Option Nat := none
  completion_timestamp : Option Nat := none
  verification_timestamp : Option Nat := none
  payment_timestamp : Option Nat := none
  receipt : Option Receipt := none
  verification_result : Option VerificationResult := none
  notes : Option String := none

/-- Apply a partial update to a row: supplied columns overwrite, all other
columns keep their value (state_manager.py:112-169). -/
def applyUpdate (j : JobRecord) (u : JobUpdate) : JobRecord :=
  { j with
    status := u.status.getD j.status
    payload := u.payload.getD j.payload
    perform_timestamp := (u.perform_timestamp.map some).getD j.perform_timestamp
    completion_timestamp := (u.completion_timestamp.map some).getD j.completion_timestamp
    verification_timestamp := (u.verification_timestamp.map some).getD j.verification_timestamp
    payment_timestamp := (u.payment_timestamp.map some).getD j.payment_timestamp
    receipt := (u.receipt.map some).getD j.receipt
    verification_result := (u.verification_result.map some).getD j.verification_result
    notes := u.notes.getD j.notes }

/-- `update_job` (state_manager.py:112-169): `UPDATE jobs SET … WHERE
job_id = ?`; a missing row is a no-op (the handler callers ignore the
returned flag). -/
def update_job (store : Store) (id : String) (u : JobUpdate) : Store :=
  store.map fun kj => (kj.1, if kj.1 = id then applyUpdate kj.2 u else kj.2)

/-- `create_job` (state_manager.py:67-110): `INSERT` fails (returns `False`)
when the primary key already exists. -/
def create_job (store : Store) (j : JobRecord) : Option Store :=
  if (get_job store j.job_id).isSome then none else some ((j.job_id, j) :: store)

/-- `get_jobs_by_status` (state_manager.py:195-227) with an agent address:
`WHERE status = ? AND (client_address = ? OR tool_address = ?)`. -/
def get_jobs_by_status (store : Store) (st : JobStatus) (addr : String) : List JobRecord :=
  (store.map Prod.snd).filter fun j =>
    j.status = st && (j.client_address = addr || j.tool_address = addr)

/-! ### Tool-side handlers (src/tool/github_tool_agent.py)

Outbound protocol messages are collected in a list; the GitHub API call is an
oracle outcome (success with the two URLs, or an exception message). -/

inductive ToolOut where
  | quoteSent (dst : String) (q : QuoteResponse)
  | receiptSent (dst : String) (r : Receipt)
deriving DecidableEq

inductive ExecOutcome where
  | ok (issue_url api_url : String)
  | err (msg : String)
deriving DecidableEq

def DEFAULT_PRICE : Int := 5000000000000000000
def DEFAULT_BOND : Int := 1000000000000000000
def DEFAULT_TTL : Int := 300

/-- The `JobRecord(...)` the tool builds for a fresh quote
(github_tool_agent.py:132-143). -/
def quoted_job_record (msg : QuoteRequest) (sender jobId toolAddr : String)
    (now : Nat) : JobRecord :=
  { job_id := jobId, task := msg.task, payload := msg.payload,
    status := .quoted, client_address := sender, tool_address := toolAddr,
    price := DEFAULT_PRICE, bond_amount := DEFAULT_BOND,
    quote_timestamp := some now, perform_timestamp := none,
    completion_timestamp := none, verification_timestamp := none,
    payment_timestamp := none, receipt := none, verification_result := none,
    notes := "Quote sent to " ++ sender }

/-- `handle_quote_request` (github_tool_agent.py:89-153).  `jobId` is the
result of `generate_job_id()` at the current clock; `toolAddr` is
`str(ctx.agent.address)`. -/
def handle_quote_request (sha256hex : List Char → String) (store : Store)
    (sender : String) (msg : QuoteRequest) (jobId toolAddr : String) (now : Nat) :
    Store × List ToolOut :=
  if msg.task ≠ TaskType.create_github_issue then (store, [])
  else if ¬ msg.payload.any (fun kv => kv.1 = "title") then (store, [])
  else
    let terms_hash := compute_terms_hash sha256hex
      { task := msg.task.value, payload := msg.payload, price := DEFAULT_PRICE,
        denom := "atestfet", ttl := DEFAULT_TTL, bond_required := DEFAULT_BOND }
    let quote : QuoteResponse :=
      { job_id := jobId, task := none, price := DEFAULT_PRICE, denom := "atestfet",
        ttl := DEFAULT_TTL, terms_hash := terms_hash, bond_required := DEFAULT_BOND,
        tool_address := toolAddr, tool_pubkey := none, timestamp := now }
    match create_job store (quoted_job_record msg sender jobId toolAddr now) with
    | some store1 => (store1, [.quoteSent sender quote])
    | none => (store, [])

/-- `handle_perform_request` (github_tool_agent.py:155-211) together with
`execute_github_issue_task` (213-266).  `tsIso` is the ISO form of the same
clock reading `now` used for the receipt timestamp and its signature. -/
def handle_perform_request (sha256hex : List Char → String)
    (hmacSha256 : String → String → String) (toolKey : String) (store : Store)
    (sender : String) (msg : PerformRequest) (execRes : ExecOutcome)
    (now : Nat) (tsIso : String) : Store × List ToolOut :=
  match get_job store msg.job_id with
  | none => (store, [])
  | some job_record =>
    if job_record.client_address ≠ sender then (store, [])
    else if job_record.status ≠ JobStatus.quoted then (store, [])
    else
      let expected_terms_hash := compute_terms_hash sha256hex
        { task := job_record.task.value, payload := job_record.payload,
          price := job_record.price, denom := "atestfet", ttl := DEFAULT_TTL,
          bond_required := job_record.bond_amount }
      if msg.terms_hash ≠ expected_terms_hash then (store, [])
      else
        let store1 := update_job store msg.job_id
          { status := some .in_progress, perform_timestamp := some now,
            notes := some (job_record.notes ++ "\\nPerform request received from " ++ sender) }
        match execRes with
        | .ok issue_url api_url =>
          let signature := create_job_signature hmacSha256 job_record.job_id issue_url tsIso toolKey
          let receipt : Receipt :=
            { job_id := job_record.job_id, output_ref := issue_url,
              verifier_url := api_url, timestamp := now, tool_signature := signature }
          let store2 := update_job store1 job_record.job_id
            { status := some .completed, completion_timestamp := some now,
              receipt := some receipt,
              notes := some (job_record.notes ++ "\\nGitHub issue created: " ++ issue_url) }
          (store2, [.receiptSent job_record.client_address receipt])
        | .err e =>
          (update_job store1 msg.job_id
            { status := some .failed,
              notes := some (job_record.notes ++ "\\nExecution failed: " ++ e) }, [])

/-- `handle_bond_notification` (github_tool_agent.py:268-281). -/
def handle_bond_notification (store : Store) (sender : String)
    (msg : BondNotification) : Store :=
  match get_job store msg.job_id with
  | none => store
  | some job_record =>
    if job_record.client_address = sender then
      update_job store msg.job_id
        { status := some .bonded,
          notes := some (job_record.notes ++ "\\nBond received: " ++ msg.tx_hash) }
    else store

/-! ### Client-side handlers (src/client/marketplace_client_agent.py)

Observable effects beyond the store are collected as events: the verifier
invocation (its result `vr` is an oracle: the independent HTTP verification),
the payment attempt through the ledger (`payRes` oracle), the payment
notification send and the perform-request send. -/

inductive ClientEv where
  | recordedVerification (vr : VerificationResult)
  | paymentAttempt (dst : String) (amount : Int)
  | paymentNotifSent (dst : String) (n : PaymentNotification)
  | simulatedPayment (tx : String)
  | performReqSent (dst : String) (p : PerformRequest)
deriving DecidableEq

inductive PayOutcome where
  | ok (tx : String)
  | err (e : String)
deriving DecidableEq

/-- Python `str.strip` whitespace set. -/
def pyIsSpace (c : Char) : Bool :=
  c == ' ' || c == '\t' || c == '\n' || c == '\x0d' || c == '\x0b' || c == '\x0c'

/-- Python `str.strip()`. -/
def pyStrip (s : String) : String :=
  String.mk (((s.data.dropWhile pyIsSpace).reverse.dropWhile pyIsSpace).reverse)

/-- Python `str.lower()` (ASCII range, which is all the source compares). -/
def pyLower (s : String) : String :=
  String.mk (s.data.map fun c => if 'A' ≤ c ∧ c ≤ 'Z' then Char.ofNat (c.toNat + 32) else c)

/-- `SIMULATE_PAYMENT` parsing (marketplace_client_agent.py:471):
`os.getenv("SIMULATE_PAYMENT", "1").strip().lower() in ("1", "true", "yes")`.
`env` is the environment variable's value, `none` when unset. -/
def simulate_payment_enabled (env : Option String) : Bool :=
  let v := pyLower (pyStrip (env.getD "1"))
  v == "1" || v == "true" || v == "yes"

/-- `verify_and_pay` (marketplace_client_agent.py:393-527).  `job_record` is
the snapshot the receipt handler fetched (the source passes the pre-update
record); `vr` is the verifier's result, `payRes` the ledger transfer
outcome.  Note the source appends its notes to the stale snapshot
`job_record.notes` in every update. -/
def verify_and_pay (store : Store) (job_record : JobRecord) (vr : VerificationResult)
    (payRes : PayOutcome) (simEnv : Option String) (clientAddr : String)
    (now : Nat) : Store × List ClientEv :=
  let store1 := update_job store job_record.job_id
    { verification_timestamp := some now, verification_result := some vr,
      notes := some (job_record.notes ++ "\\nVerification: " ++ vr.details) }
  if vr.verified then
    match payRes with
    | .ok tx_hash =>
      let payment_notification : PaymentNotification :=
        { job_id := job_record.job_id, tx_hash := tx_hash, amount := job_record.price,
          sender := clientAddr, timestamp := now }
      let store2 := update_job store1 job_record.job_id
        { status := some .paid, payment_timestamp := some now,
          notes := some (job_record.notes ++ "\\nPayment sent: " ++ tx_hash) }
      (store2, [.recordedVerification vr,
                .paymentAttempt job_record.tool_address job_record.price,
                .paymentNotifSent job_record.tool_address payment_notification])
    | .err e =>
      if simulate_payment_enabled simEnv then
        let tx_hash := "demo_tx_" ++ (job_record.job_id.take 8) ++ "_" ++ toString now
        (update_job store1 job_record.job_id
          { status := some .paid, payment_timestamp := some now,
            notes := some (job_record.notes ++ "\\nPayment simulated: " ++ tx_hash ++ " (" ++ e ++ ")") },
         [.recordedVerification vr,
          .paymentAttempt job_record.tool_address job_record.price,
          .simulatedPayment tx_hash])
      else
        (update_job store1 job_record.job_id
          { status := some .failed,
            notes := some (job_record.notes ++ "\\nPayment failed: " ++ e) },
         [.recordedVerification vr,
          .paymentAttempt job_record.tool_address job_record.price])
  else
    (update_job store1 job_record.job_id
      { status := some .failed,
        notes := some (job_record.notes ++ "\\nVerification failed: " ++ vr.details) },
     [.recordedVerification vr])

/-- `handle_receipt` (marketplace_client_agent.py:353-391). -/
def handle_receipt (store : Store) (sender : String) (msg : Receipt)
    (vr : VerificationResult) (payRes : PayOutcome) (simEnv : Option String)
    (clientAddr : String) (now : Nat) : Store × List ClientEv :=
  match get_job store msg.job_id with
  | none => (store, [])
  | some job_record =>
    if job_record.tool_address ≠ sender then (store, [])
    else
      let store1 := update_job store msg.job_id
        { status := some .completed, completion_timestamp := some now,
          receipt := some msg,
          notes := some (job_record.notes ++ "\\nReceipt received: " ++ msg.output_ref) }
      verify_and_pay store1 job_record vr payRes simEnv clientAddr now

/-- Fallback payload built by `accept_quote` when the stored payload is empty
(marketplace_client_agent.py:288-301). -/
def default_payload (t : Option TaskType) (jobId tsIso : String) : Payload :=
  match t with
  | some .create_github_issue =>
    [("title", .s "Demo GitHub Issue from Marketplace"),
     ("body", .s ("This issue was created through the trust-minimized agent marketplace\n\nJob ID: "
                  ++ jobId ++ "\nTimestamp: " ++ tsIso)),
     ("labels", .arr ["innovationlab", "hackathon", "demo"])]
  | some .translate_text =>
    [("text", .s "Hello"), ("source_lang", .s "auto"), ("target_lang", .s "es")]
  | _ => []

/-- `accept_quote` (marketplace_client_agent.py:273-351).  `sendOk` models
whether `ctx.send` of the perform request raises; on an exception the handler
marks the job `Failed` with a fresh notes string. -/
def accept_quote (hmacSha256 : String → String → String) (store : Store)
    (quote : QuoteResponse) (tool_address clientKey tsIso : String) (now : Nat)
    (sendOk : Bool) (errMsg : String) : Store × List ClientEv :=
  match get_job store quote.job_id with
  | none => (store, [])
  | some job_record =>
    let payload := if job_record.payload ≠ [] then job_record.payload
                   else default_payload quote.task quote.job_id tsIso
    let client_signature :=
      create_client_signature hmacSha256 quote.job_id quote.terms_hash tsIso clientKey
    let perform_request : PerformRequest :=
      { job_id := quote.job_id, payload := payload, terms_hash := quote.terms_hash,
        client_signature := client_signature, timestamp := now }
    let store1 := update_job store quote.job_id
      { status := some .accepted, perform_timestamp := some now,
        payload := some perform_request.payload,
        notes := some ("Quote accepted, perform request sent to " ++ tool_address) }
    if sendOk then (store1, [.performReqSent tool_address perform_request])
    else
      (update_job store1 quote.job_id
        { status := some .failed, notes := some ("Error accepting quote: " ++ errMsg) }, [])

/-- `handle_quote_response` (marketplace_client_agent.py:183-271).
`origPayload` is the entry popped from `PENDING_REQUESTS` (possibly empty);
the best-effort balance check only logs and is not modelled.  On a failed
`create_job` the handler returns; otherwise it auto-accepts. -/
def handle_quote_response (hmacSha256 : String → String → String) (store : Store)
    (sender : String) (msg : QuoteResponse) (origPayload : Payload)
    (clientAddr clientKey tsIso : String) (now : Nat) (sendOk : Bool)
    (errMsg : String) : Store × List ClientEv :=
  let job_record : JobRecord :=
    { job_id := msg.job_id, task := msg.task.getD .create_github_issue,
      payload := origPayload, status := .quoted, client_address := clientAddr,
      tool_address := sender, price := msg.price, bond_amount := msg.bond_required,
      quote_timestamp := some now, perform_timestamp := none,
      completion_timestamp := none, verification_timestamp := none,
      payment_timestamp := none, receipt := none, verification_result := none,
      notes := "Quote received from " ++ sender }
  match create_job store job_record with
  | none => (store, [])
  | some store1 => accept_quote hmacSha256 store1 msg sender clientKey tsIso now sendOk errMsg

/-- `timedelta.seconds` of a non-negative elapsed duration: the seconds
component excluding whole days. -/
def timedelta_seconds (elapsed : Nat) : Nat := elapsed % 86400

/-- `check_pending_jobs` (marketplace_client_agent.py:663-687): the periodic
sweep over `Accepted`/`In_Progress` jobs; the timeout test is
`(utcnow() - perform_timestamp).seconds > 600`. -/
def check_pending_jobs (store : Store) (clientAddr : String) (now : Nat) : Store :=
  let pending := get_jobs_by_status store .accepted clientAddr
                 ++ get_jobs_by_status store .in_progress clientAddr
  pending.foldl (fun st job =>
    match job.perform_timestamp with
    | some t =>
      if timedelta_seconds (now - t) > 600 then
        update_job st job.job_id
          { status := some .failed, notes := some (job.notes ++ "\\nJob timed out") }
      else st
    | none => st) store

/-- One client-side lifecycle step: an incoming message handled by one of the
client agent's handlers, or one run of the periodic sweep, with its external
oracle inputs. -/
inductive ClientStep where
  | quoteResponse (hmacSha256 : String → String → String) (sender : String)
      (msg : QuoteResponse) (origPayload : Payload)
      (clientAddr clientKey tsIso : String) (now : Nat) (sendOk : Bool) (errMsg : String)
  | receipt (sender : String) (msg : Receipt) (vr : VerificationResult)
      (payRes : PayOutcome) (simEnv : Option String) (clientAddr : String) (now : Nat)
  | sweep (clientAddr : String) (now : Nat)

def clientStep (store : Store) : ClientStep → Store × List ClientEv
  | .quoteResponse h sender msg orig ca ck ts now ok em =>
    handle_quote_response h store sender msg orig ca ck ts now ok em
  | .receipt sender msg vr payRes simEnv ca now =>
    handle_receipt store sender msg vr payRes simEnv ca now
  | .sweep ca now => (check_pending_jobs store ca now, [])

/-! ### Specification predicates -/

/-- Whitespace characters relevant to the "whitespace-free" serialization
claim. -/
def isWsChar (c : Char) : Bool := c == ' ' || c == '\n' || c == '\t' || c == '\r'

def strWsFree (s : String) : Bool := s.data.all fun c => !isWsChar c

def pvalWsFree : PVal → Bool
  | .s v => strWsFree v
  | .i _ => true
  | .arr vs => vs.all strWsFree

def payloadWsFree (p : Payload) : Bool := p.all fun kv => strWsFree kv.1 && pvalWsFree kv.2

/-- The no-pay-without-verify store invariant: every job the client has
marked `Paid` carries a recorded verification result with `verified = true`. -/
def PaidImpliesVerified (store : Store) : Prop :=
  ∀ id j, get_job store id = some j → j.status = JobStatus.paid →
    ∃ vr, j.verification_result = some vr ∧ vr.verified = true

/-- `true` iff every payment action in the event trace (ledger transfer
attempt, payment notification, simulated payment) is preceded by a recorded
verification result with `verified = true`. -/
def ppvGo (seen : Bool) : List ClientEv → Bool
  | [] => true
  | .recordedVerification vr :: rest => ppvGo (seen || vr.verified) rest
  | .paymentAttempt _ _ :: rest => seen && ppvGo seen rest
  | .paymentNotifSent _ _ :: rest => seen && ppvGo seen rest
  | .simulatedPayment _ :: rest => seen && ppvGo seen rest
  | .performReqSent _ _ :: rest => ppvGo seen rest

def payment_after_verification (evs : List ClientEv) : Bool := ppvGo false evs

/-- Store well-formedness maintained by the SQLite schema: `job_id` is the
primary key, and every row is stored under its own `job_id`. -/
def storeWF (store : Store) : Prop :=
  (store.map Prod.fst).Nodup ∧ ∀ kj ∈ store, kj.2.job_id = kj.1

/-- `store'` extends every stored job's notes: whatever is stored afterwards
for an id carries the previously stored notes as a prefix. -/
def NotesExtended (store store' : Store) : Prop :=
  ∀ id j', get_job store' id = some j' →
    ∃ j0, get_job store id = some j0 ∧ j0.notes.data <+: j'.notes.data

/-! ### Concrete sample data (used by witnesses and counterexamples) -/

/-- Stand-in for the external SHA-256 hex digest in concrete evaluations. -/
def shaFn : List Char → String := fun cs => String.mk cs

/-- Stand-in for the external HMAC-SHA256 primitive in concrete evaluations. -/
def hmFn : String → String → String := fun key msg => key ++ "#" ++ msg

def mkJob (st : JobStatus) (pt : Option Nat) : JobRecord :=
  { job_id := "job_1", task := .create_github_issue,
    payload := [("title", PVal.s "T")], status := st,
    client_address := "client_A", tool_address := "tool_B",
    price := 5, bond_amount := 1, quote_timestamp := some 1,
    perform_timestamp := pt, completion_timestamp := none,
    verification_timestamp := none, payment_timestamp := none,
    receipt := none, verification_result := none,
    notes := "Quote received from tool_B" }

def sampleQuote : QuoteResponse :=
  { job_id := "job_1", task := some .create_github_issue, price := 5,
    denom := "atestfet", ttl := 300, terms_hash := "H", bond_required := 1,
    tool_address := "tool_B", tool_pubkey := some "k", timestamp := 4 }

def sampleReceiptMsg : Receipt :=
  { job_id := "job_1", output_ref := "https://github.com/o/r/issues/1",
    verifier_url := "https://api.github.com/repos/o/r/issues/1",
    timestamp := 5, tool_signature := "sig" }

def sampleBond : BondNotification :=
  { job_id := "job_1", tx_hash := "0xbond", amount := 1,
    sender := "client_A", timestamp := 6 }

def samplePerform : PerformRequest :=
  { job_id := "job_1", payload := [("title", PVal.s "T")],
    terms_hash := "BAD", client_signature := "csig", timestamp := 7 }

def sampleQuoteReq : QuoteRequest :=
  { task := .create_github_issue, payload := [("title", PVal.s "T")],
    client_address := "client_A", timestamp := 2 }

def vrTrue : VerificationResult :=
  { job_id := "job_1", verified := true, details := "ok", timestamp := 8 }

def vrFalse : VerificationResult :=
  { job_id := "job_1", verified := false, details := "signature invalid", timestamp := 8 }

/-- Two logically equal payload maps differing only in key insertion order. -/
def payloadA : Payload := [("title", PVal.s "T"), ("labels", PVal.arr ["a", "b"])]

def payloadB : Payload := [("labels", PVal.arr ["a", "b"]), ("title", PVal.s "T")]

/-! ### Store lemmas -/

theorem str_data_append (a b : String) : (a ++ b).data = a.data ++ b.data := by
  cases a; cases b; rfl

theorem get_job_update_job (store : Store) (id : String) (u : JobUpdate) (id' : String) :
    get_job (update_job store id u) id' =
      if id' = id then (get_job store id').map (applyUpdate · u) else get_job store id' := by
  induction store with
  | nil => simp [get_job, update_job]
  | cons kj rest ih =>
    obtain ⟨k, j⟩ := kj
    simp only [update_job, List.map_cons] at ih ⊢
    by_cases hk : k = id'
    · subst hk
      by_cases hd : k = id
      · subst hd; simp [get_job]
      · simp [get_job, hd, fun h : k = id => hd h]
    · by_cases hd : id' = id
      · subst hd
        simpa [get_job, hk, update_job] using ih
      · simpa [get_job, hk, hd, update_job] using ih

theorem get_job_update_self (store : Store) (id : String) (u : JobUpdate) :
    get_job (update_job store id u) id = (get_job store id).map (applyUpdate · u) := by
  simp [get_job_update_job]

theorem get_job_update_ne (store : Store) (id : String) (u : JobUpdate) (id' : String)
    (h : id' ≠ id) : get_job (update_job store id u) id' = get_job store id' := by
  simp [get_job_update_job, h]

theorem get_job_mem_of_nodup (store : Store) (k : String) (v : JobRecord)
    (hmem : (k, v) ∈ store) (hn : (store.map Prod.fst).Nodup) :
    get_job store k = some v := by
  induction store with
  | nil => cases hmem
  | cons kj rest ih =>
    obtain ⟨k₀, v₀⟩ := kj
    simp only [List.map_cons, List.nodup_cons] at hn
    rcases List.mem_cons.mp hmem with h | h
    · cases h
      simp [get_job]
    · by_cases hk : k₀ = k
      · subst hk
        exact absurd (List.mem_map.mpr ⟨(k₀, v), h, rfl⟩) hn.1
      · simp only [get_job, hk, if_neg]
        exact ih h hn.2

/-! ### Canonical serialization lemmas (claim C5 machinery) -/

/-- Strict key ordering (used to show the sorted form is unique). -/
def keyLt (a b : String × PVal) : Prop := a.1 < b.1

instance : IsAntisymm (String × PVal) keyLt :=
  ⟨fun _ _ h h' => ((lt_asymm h) h').elim⟩

theorem sortKeys_perm (p : Payload) : (sortKeys p).Perm p :=
  List.perm_insertionSort keyLe p

theorem sortKeys_sorted (p : Payload) : List.Sorted keyLe (sortKeys p) :=
  List.sorted_insertionSort keyLe p

theorem sortKeys_sorted_lt (p : Payload) (hn : (p.map Prod.fst).Nodup) :
    List.Sorted keyLt (sortKeys p) := by
  have hkeys : ((sortKeys p).map Prod.fst).Nodup :=
    (((sortKeys_perm p).map Prod.fst).nodup_iff).mpr hn
  have hne : List.Pairwise (fun a b : String × PVal => a.1 ≠ b.1) (sortKeys p) :=
    (List.pairwise_map).mp hkeys
  exact ((sortKeys_sorted p).and hne).imp fun h => lt_of_le_of_ne h.1 h.2

theorem sortKeys_eq_of_perm (p₁ p₂ : Payload) (hp : p₁.Perm p₂)
    (hn : (p₁.map Prod.fst).Nodup) : sortKeys p₁ = sortKeys p₂ := by
  have hn₂ : (p₂.map Prod.fst).Nodup := ((hp.map Prod.fst).nodup_iff).mp hn
  have hperm : (sortKeys p₁).Perm (sortKeys p₂) :=
    (sortKeys_perm p₁).trans (hp.trans (sortKeys_perm p₂).symm)
  exact List.eq_of_perm_of_sorted hperm (sortKeys_sorted_lt p₁ hn) (sortKeys_sorted_lt p₂ hn₂)

/-! Whitespace-freeness of the canonical serialization. -/

theorem ws_digitChar (d : Nat) (hd : d < 10) : isWsChar (digitChar d) = false := by
  interval_cases d <;> decide

theorem ws_hexDigitChar (m : Nat) (hm : m < 16) : isWsChar (hexDigitChar m) = false := by
  interval_cases m <;> decide

theorem ws_hex4 (n : Nat) (c : Char) (hc : c ∈ hex4 n) : isWsChar c = false := by
  simp only [hex4, List.mem_cons, List.mem_singleton, List.not_mem_nil, or_false] at hc
  rcases hc with h | h | h | h <;> subst h <;>
    exact ws_hexDigitChar _ (Nat.mod_lt _ (by omega))

theorem ws_escChar (d c : Char) (hd : isWsChar d = false) (hc : c ∈ escChar d) :
    isWsChar c = false := by
  unfold escChar at hc
  split_ifs at hc with h1 h2 h3 h4 h5 h6 <;>
    simp only [List.mem_cons, List.mem_singleton, List.not_mem_nil, or_false] at hc
  · rcases hc with rfl | rfl <;> decide
  · rcases hc with rfl | rfl <;> decide
  · rcases hc with rfl | rfl <;> decide
  · rcases hc with rfl | rfl <;> decide
  · rcases hc with rfl | rfl <;> decide
  · rcases hc with rfl | rfl | h
    · decide
    · decide
    · exact ws_hex4 _ _ h
  · subst hc; exact hd

theorem ws_escList (cs : List Char) (hcs : cs.all (fun c => !isWsChar c) = true)
    (c : Char) (hc : c ∈ cs.foldr (fun c acc => escChar c ++ acc) []) :
    isWsChar c = false := by
  induction cs with
  | nil => cases hc
  | cons d rest ih =>
    simp only [List.all_cons, Bool.and_eq_true, Bool.not_eq_true'] at hcs
    simp only [List.foldr_cons, List.mem_append] at hc
    rcases hc with h | h
    · exact ws_escChar d c hcs.1 h
    · exact ih hcs.2 h

theorem ws_jstr (s : String) (hs : strWsFree s = true) (c : Char) (hc : c ∈ jstr s) :
    isWsChar c = false := by
  simp only [jstr, List.mem_cons, List.mem_append, List.mem_singleton] at hc
  rcases hc with (rfl | h) | (rfl | h)
  · decide
  · exact ws_escList s.data hs c h
  · decide
  · cases h

theorem ws_natChars (n : Nat) : ∀ c ∈ natChars n, isWsChar c = false := by
  induction n using Nat.strong_induction_on with
  | _ n ih =>
    rw [natChars]
    split
    · intro c hc
      simp only [List.mem_singleton] at hc
      subst hc
      exact ws_digitChar n (by omega)
    · intro c hc
      rcases List.mem_append.mp hc with h | h
      · exact ih (n / 10) (Nat.div_lt_self (by omega) (by omega)) c h
      · simp only [List.mem_singleton] at h
        subst h
        exact ws_digitChar _ (Nat.mod_lt _ (by omega))

theorem ws_intChars (i : Int) : ∀ c ∈ intChars i, isWsChar c = false := by
  unfold intChars
  split
  · intro c hc
    rcases List.mem_cons.mp hc with h | h
    · subst h; decide
    · exact ws_natChars _ c h
  · exact ws_natChars _

theorem ws_joinComma (xs : List (List Char))
    (hxs : ∀ x ∈ xs, ∀ c ∈ x, isWsChar c = false) :
    ∀ c ∈ joinComma xs, isWsChar c = false := by
  induction xs with
  | nil => intro c hc; cases hc
  | cons x rest ih =>
    intro c hc
    cases rest with
    | nil => exact hxs x (by simp) c hc
    | cons y ys =>
      rcases List.mem_append.mp hc with h | h
      · exact hxs x (by simp) c h
      · rcases List.mem_cons.mp h with h' | h'
        · subst h'; decide
        · exact ih (fun z hz => hxs z (List.mem_cons_of_mem _ hz)) c h'

theorem ws_dumpPVal (v : PVal) (hv : pvalWsFree v = true) :
    ∀ c ∈ dumpPVal v, isWsChar c = false := by
  cases v with
  | s w => exact ws_jstr w hv
  | i n => exact ws_intChars n
  | arr vs =>
    intro c hc
    simp only [dumpPVal] at hc
    rcases List.mem_cons.mp hc with h | h
    · subst h; decide
    · rcases List.mem_append.mp h with h' | h'
      · refine ws_joinComma _ ?_ c h'
        intro x hx
        rcases List.mem_map.mp hx with ⟨w, hw, rfl⟩
        simp only [pvalWsFree, List.all_eq_true] at hv
        exact ws_jstr w (hv w hw)
      · simp only [List.mem_singleton] at h'
        subst h'; decide

theorem ws_dumpPayload (p : Payload) (hp : payloadWsFree p = true) :
    ∀ c ∈ dumpPayload p, isWsChar c = false := by
  intro c hc
  simp only [dumpPayload] at hc
  rcases List.mem_cons.mp hc with h | h
  · subst h; decide
  · rcases List.mem_append.mp h with h' | h'
    · refine ws_joinComma _ ?_ c h'
      intro x hx
      rcases List.mem_map.mp hx with ⟨kv, hkv, rfl⟩
      have hkv' : kv ∈ p := (sortKeys_perm p).mem_iff.mp hkv
      simp only [payloadWsFree, List.all_eq_true, Bool.and_eq_true] at hp
      obtain ⟨hk, hw⟩ := hp kv hkv'
      intro c' hc'
      rcases List.mem_append.mp hc' with h'' | h''
      · exact ws_jstr kv.1 hk c' h''
      · rcases List.mem_cons.mp h'' with h₃ | h₃
        · subst h₃; decide
        · exact ws_dumpPVal kv.2 hw c' h₃
    · simp only [List.mem_singleton] at h'
      subst h'; decide

theorem ws_termsJson (qd : QuoteData)
    (htask : strWsFree qd.task = true) (hdenom : strWsFree qd.denom = true)
    (hp : payloadWsFree qd.payload = true) :
    ∀ c ∈ termsJson qd, isWsChar c = false := by
  intro c hc
  simp only [termsJson] at hc
  rcases List.mem_cons.mp hc with h | h
  · subst h; decide
  · rcases List.mem_append.mp h with h' | h'
    · refine ws_joinComma _ ?_ c h'
      intro x hx
      simp only [List.mem_cons, List.mem_singleton, List.not_mem_nil, or_false] at hx
      rcases hx with rfl | rfl | rfl | rfl | rfl | rfl <;> intro c' hc' <;>
        [skip; skip; skip; skip; skip; skip] <;> first
        | (rcases List.mem_append.mp hc' with h'' | h''
           · exact ws_jstr _ (by decide) c' h''
           · rcases List.mem_cons.mp h'' with h₃ | h₃
             · subst h₃; decide
             · first
               | exact ws_intChars _ c' h₃
               | exact ws_jstr _ hdenom c' h₃
               | exact ws_dumpPayload _ hp c' h₃
               | exact ws_jstr _ htask c' h₃)
    · simp only [List.mem_singleton] at h'
      subst h'; decide

theorem get_job_mem (store : Store) (k : String) (v : JobRecord)
    (hget : get_job store k = some v) : (k, v) ∈ store := by
  induction store with
  | nil => cases hget
  | cons kj rest ih =>
    obtain ⟨k₀, v₀⟩ := kj
    by_cases hk : k₀ = k
    · subst hk
      have hv : v₀ = v := by simpa [get_job] using hget
      subst hv
      exact List.mem_cons_self _ _
    · simp only [get_job, hk, if_neg] at hget
      exact List.mem_cons_of_mem _ (ih hget)

theorem get_job_wf (store : Store) (k : String) (v : JobRecord)
    (hwf : storeWF store) (hget : get_job store k = some v) : v.job_id = k :=
  hwf.2 (k, v) (get_job_mem store k v hget)

/-! ## Claim theorems -/

/-- Claim C2: a `PerformRequest` whose `terms_hash` differs from the hash the
tool recomputes over the stored job's task, payload, price, denom, ttl and
bond amount is rejected: the handler returns with the store unchanged (the
job stays exactly as stored, in particular a `Quoted` job stays `Quoted`) and
sends nothing — no response and no `Receipt`. -/
theorem perform_terms_mismatch_rejected :
    ∀ (sha256hex : List Char → String) (hmacSha256 : String → String → String)
      (toolKey : String) (store : Store) (sender : String) (msg : PerformRequest)
      (execRes : ExecOutcome) (now : Nat) (tsIso : String) (job : JobRecord),
      get_job store msg.job_id = some job →
      msg.terms_hash ≠ compute_terms_hash sha256hex
        ⟨job.task.value, job.payload, job.price, "atestfet", DEFAULT_TTL, job.bond_amount⟩ →
      handle_perform_request sha256hex hmacSha256 toolKey store sender msg execRes now tsIso
        = (store, []) := by
  intro sha hm key store sender msg execRes now tsIso job hget hne
  simp only [handle_perform_request, hget]
  split_ifs <;> rfl

/-- Witness for C2 at a concrete store and request. -/
theorem perform_terms_mismatch_rejected_witness :
    get_job [("job_1", mkJob .quoted none)] samplePerform.job_id = some (mkJob .quoted none) ∧
    handle_perform_request shaFn hmFn "tk" [("job_1", mkJob .quoted none)] "client_A"
      samplePerform (.ok "u" "a") 7 "TS" = ([("job_1", mkJob .quoted none)], []) := by
  refine ⟨by decide, ?_⟩
  exact perform_terms_mismatch_rejected shaFn hmFn "tk" _ "client_A" samplePerform
    (.ok "u" "a") 7 "TS" (mkJob .quoted none) (by decide) (by decide)

/-- Claim C3: sender authorization. A `PerformRequest` whose envelope sender
differs from the stored job's `client_address` is dropped by the tool with no
state change and no outgoing message, and a `Receipt` whose sender differs
from the stored job's `tool_address` is dropped by the client with no state
change and no events (no verification invoked, no payment). -/
theorem sender_mismatch_rejected :
    (∀ (sha256hex : List Char → String) (hmacSha256 : String → String → String)
       (toolKey : String) (store : Store) (sender : String) (msg : PerformRequest)
       (execRes : ExecOutcome) (now : Nat) (tsIso : String) (job : JobRecord),
       get_job store msg.job_id = some job → job.client_address ≠ sender →
       handle_perform_request sha256hex hmacSha256 toolKey store sender msg execRes now tsIso
         = (store, [])) ∧
    (∀ (store : Store) (sender : String) (msg : Receipt) (vr : VerificationResult)
       (payRes : PayOutcome) (simEnv : Option String) (clientAddr : String) (now : Nat)
       (job : JobRecord),
       get_job store msg.job_id = some job → job.tool_address ≠ sender →
       handle_receipt store sender msg vr payRes simEnv clientAddr now = (store, [])) := by
  constructor
  · intro sha hm key store sender msg execRes now tsIso job hget hne
    simp only [handle_perform_request, hget]
    rw [if_pos hne]
  · intro store sender msg vr payRes simEnv ca now job hget hne
    simp only [handle_receipt, hget]
    rw [if_pos hne]

/-- Witness for C3: both rejections evaluated at concrete inputs. -/
theorem sender_mismatch_rejected_witness :
    handle_perform_request shaFn hmFn "tk" [("job_1", mkJob .quoted none)] "mallory"
      samplePerform (.ok "u" "a") 7 "TS" = ([("job_1", mkJob .quoted none)], []) ∧
    handle_receipt [("job_1", mkJob .accepted (some 2))] "mallory" sampleReceiptMsg
      vrTrue (.ok "tx") none "client_A" 9 = ([("job_1", mkJob .accepted (some 2))], []) :=
  ⟨sender_mismatch_rejected.1 shaFn hmFn "tk" _ "mallory" samplePerform (.ok "u" "a") 7 "TS"
     (mkJob .quoted none) (by decide) (by decide),
   sender_mismatch_rejected.2 _ "mallory" sampleReceiptMsg vrTrue (.ok "tx") none "client_A" 9
     (mkJob .accepted (some 2)) (by decide) (by decide)⟩

/-- Counterexample to claim C4 as stated: terminal statuses are *not*
preserved by all lifecycle messages.  A `BondNotification` from the recorded
client moves a `Failed` job to `Bonded`, and a duplicate `Receipt` from the
recorded tool address moves a `Paid` job off `Paid` (here, re-verification
fails and the job ends `Failed`). -/
theorem terminal_status_not_preserved_cex :
    (get_job (handle_bond_notification [("job_1", mkJob .failed (some 2))] "client_A"
        sampleBond) "job_1").map JobRecord.status = some JobStatus.bonded ∧
    (get_job (handle_receipt [("job_1", mkJob .paid (some 2))] "tool_B" sampleReceiptMsg
        vrFalse (.err "x") (some "0") "client_A" 9).1 "job_1").map JobRecord.status
      = some JobStatus.failed := by
  constructor
  · decide
  · decide

/-- Claim C4 (amended): a further `PerformRequest` cannot change a terminal
(`Paid`/`Failed`/`Cancelled`) job — the tool's status guard rejects any job
that is not `Quoted`, leaving the store unchanged and sending nothing.  The
client's `Receipt` handler and the tool's `BondNotification` handler have no
such status guard, so authorized duplicates do change terminal jobs (see the
counterexample). -/
theorem perform_request_preserves_terminal_status :
    ∀ (sha256hex : List Char → String) (hmacSha256 : String → String → String)
      (toolKey : String) (store : Store) (sender : String) (msg : PerformRequest)
      (execRes : ExecOutcome) (now : Nat) (tsIso : String) (job : JobRecord),
      get_job store msg.job_id = some job →
      (job.status = .paid ∨ job.status = .failed ∨ job.status = .cancelled) →
      handle_perform_request sha256hex hmacSha256 toolKey store sender msg execRes now tsIso
        = (store, []) := by
  intro sha hm key store sender msg execRes now tsIso job hget hterm
  have hne : job.status ≠ JobStatus.quoted := by
    rcases hterm with h | h | h <;> simp [h]
  simp only [handle_perform_request, hget]
  split_ifs <;> rfl

/-- Witness for the amended C4 at a concrete `Paid` job. -/
theorem perform_request_preserves_terminal_status_witness :
    handle_perform_request shaFn hmFn "tk" [("job_1", mkJob .paid (some 2))] "client_A"
      samplePerform (.ok "u" "a") 7 "TS" = ([("job_1", mkJob .paid (some 2))], []) :=
  perform_request_preserves_terminal_status shaFn hmFn "tk" _ "client_A" samplePerform
    (.ok "u" "a") 7 "TS" (mkJob .paid (some 2)) (by decide) (by decide)

/-- Counterexample to claim C6 as stated: the simulate-payment fallback *is*
enabled by default.  With `SIMULATE_PAYMENT` unset the parse defaults to
`"1"` (enabled), and a job whose verification succeeded but whose transfer
failed is marked `Paid` (simulated), not `Failed`. -/
theorem simulate_payment_default_enabled_cex :
    simulate_payment_enabled none = true ∧
    (get_job (verify_and_pay [("job_1", mkJob .completed (some 2))] (mkJob .completed (some 2))
        vrTrue (.err "Payment failed: insufficient funds") none "client_A" 10).1
      "job_1").map JobRecord.status = some JobStatus.paid := by
  constructor
  · decide
  · decide

/-- Claim C6 (amended): when verification succeeds but the transfer fails,
the client marks the job `Failed` only when `SIMULATE_PAYMENT` is explicitly
disabled; the simulate-payment fallback defaults to enabled (`"1"`) when the
variable is unset. -/
theorem payment_failure_without_simulation_fails_job :
    (∀ (store : Store) (job : JobRecord) (vr : VerificationResult) (e : String)
       (simEnv : Option String) (clientAddr : String) (now : Nat) (j0 : JobRecord),
       get_job store job.job_id = some j0 →
       vr.verified = true →
       simulate_payment_enabled simEnv = false →
       (get_job (verify_and_pay store job vr (.err e) simEnv clientAddr now).1
         job.job_id).map JobRecord.status = some JobStatus.failed) ∧
    simulate_payment_enabled none = true := by
  constructor
  · intro store job vr e simEnv ca now j0 hget hv hsim
    simp only [verify_and_pay, hv, if_true, hsim, Bool.false_eq_true, if_false]
    rw [get_job_update_self, get_job_update_self, hget]
    simp [applyUpdate]
  · decide

/-- Witness for the amended C6 with `SIMULATE_PAYMENT=0`. -/
theorem payment_failure_without_simulation_fails_job_witness :
    (get_job (verify_and_pay [("job_1", mkJob .completed (some 2))] (mkJob .completed (some 2))
        vrTrue (.err "transport error") (some "0") "client_A" 10).1
      "job_1").map JobRecord.status = some JobStatus.failed :=
  payment_failure_without_simulation_fails_job.1 _ (mkJob .completed (some 2)) vrTrue
    "transport error" (some "0") "client_A" 10 (mkJob .completed (some 2))
    (by decide) (by decide) (by decide)

/-- Claim C7 is wrong about the code: the sweep compares
`timedelta.seconds` — the seconds component *excluding whole days* — against
600, so a job whose `perform_timestamp` is 1 day + 5 minutes old (86700 s) is
*not* transitioned to `Failed` (its seconds component is 300), while a job
700 s old is.  The code misses jobs whose age modulo 86400 s is ≤ 600. -/
theorem timeout_sweep_day_wrap :
    timedelta_seconds (86700 - 0) = 300 ∧ 86700 - 0 > 600 ∧
    (get_job (check_pending_jobs [("job_1", mkJob .accepted (some 0))] "client_A" 86700)
      "job_1").map JobRecord.status = some JobStatus.accepted ∧
    (get_job (check_pending_jobs [("job_1", mkJob .accepted (some 0))] "client_A" 700)
      "job_1").map JobRecord.status = some JobStatus.failed := by
  refine ⟨by decide, by decide, by decide, by decide⟩

/-- Claim C9 is wrong about the code: `generate_job_id` is a pure function of
the observed UTC clock reading (it hashes `f"{ts}|{hash(ts)}"`, and Python's
`hash` is fixed within a process), so two invocations that observe the same
`datetime.utcnow().isoformat()` return the *same* job id, not different
ones. -/
theorem generate_job_id_deterministic_in_clock :
    ∀ (sha256hex8 : String → String) (pyHash : String → Int),
      generate_job_id sha256hex8 pyHash "2025-01-01T00:00:00.000000" =
        generate_job_id sha256hex8 pyHash "2025-01-01T00:00:00.000000" ∧
      ∀ ts : String, generate_job_id sha256hex8 pyHash ts =
        "job_" ++ sha256hex8 (ts ++ "|" ++ toString (pyHash ts)) :=
  fun _ _ => ⟨rfl, fun _ => rfl⟩

/-- Claim C10: the tool sends a `QuoteResponse` only when the `Quoted` job
record was successfully persisted first: any outgoing message implies the
store holds the job in status `Quoted` under the new job id, and if the
insert fails (the job id already exists) nothing is sent and the store is
unchanged. -/
theorem quote_response_only_after_persist :
    ∀ (sha256hex : List Char → String) (store : Store) (sender : String)
      (msg : QuoteRequest) (jobId toolAddr : String) (now : Nat),
      (∀ out ∈ (handle_quote_request sha256hex store sender msg jobId toolAddr now).2,
        ∃ jr, get_job (handle_quote_request sha256hex store sender msg jobId toolAddr now).1
                jobId = some jr ∧ jr.status = .quoted ∧ jr.job_id = jobId) ∧
      ((get_job store jobId).isSome →
        handle_quote_request sha256hex store sender msg jobId toolAddr now = (store, [])) := by
  intro sha store sender msg jobId toolAddr now
  by_cases h3 : (get_job store jobId).isSome
  · have hc : create_job store (quoted_job_record msg sender jobId toolAddr now) = none := by
      simp [create_job, quoted_job_record, h3]
    simp only [handle_quote_request, hc]
    split_ifs <;> exact ⟨fun out h => absurd h (List.not_mem_nil out), fun _ => rfl⟩
  · have hc : create_job store (quoted_job_record msg sender jobId toolAddr now) =
        some ((jobId, quoted_job_record msg sender jobId toolAddr now) :: store) := by
      simp [create_job, quoted_job_record, h3]
    simp only [handle_quote_request, hc]
    split_ifs <;>
      first
        | exact ⟨fun out h => absurd h (List.not_mem_nil out), fun _ => rfl⟩
        | (refine ⟨fun out _ => ⟨quoted_job_record msg sender jobId toolAddr now, ?_, rfl, rfl⟩,
             fun hs => absurd hs h3⟩
           simp [get_job])

/-- Witness for C10: with the job id already present, the handler sends
nothing and leaves the store unchanged. -/
theorem quote_response_only_after_persist_witness :
    handle_quote_request shaFn [("job_9", mkJob .quoted none)] "client_A" sampleQuoteReq
      "job_9" "tool_B" 3 = ([("job_9", mkJob .quoted none)], []) :=
  (quote_response_only_after_persist shaFn _ "client_A" sampleQuoteReq "job_9" "tool_B" 3).2
    (by decide)

/-- Claim C5: `compute_terms_hash` is deterministic and canonical.  Two
quote-term inputs that agree as logical values — in particular payload maps
with the same entries in any key insertion order (keys are unique, as in a
Python dict) — hash to the identical digest; the serialized form the digest
is computed over contains no whitespace of its own (any whitespace could only
be copied from inside an input string), and payload keys are emitted in
canonically sorted order. -/
theorem terms_hash_deterministic_canonical :
    (∀ (sha256hex : List Char → String) (task denom : String) (price ttl bond : Int)
       (p₁ p₂ : Payload), p₁.Perm p₂ → (p₁.map Prod.fst).Nodup →
       compute_terms_hash sha256hex ⟨task, p₁, price, denom, ttl, bond⟩ =
       compute_terms_hash sha256hex ⟨task, p₂, price, denom, ttl, bond⟩) ∧
    (∀ qd : QuoteData, strWsFree qd.task = true → strWsFree qd.denom = true →
       payloadWsFree qd.payload = true → ∀ c ∈ termsJson qd, isWsChar c = false) ∧
    (∀ p : Payload, List.Sorted keyLe (sortKeys p)) := by
  refine ⟨?_, ws_termsJson, sortKeys_sorted⟩
  intro sha task denom price ttl bond p₁ p₂ hp hn
  unfold compute_terms_hash termsJson dumpPayload
  rw [sortKeys_eq_of_perm p₁ p₂ hp hn]

/-- Witness for C5 on two concrete permuted payloads. -/
theorem terms_hash_deterministic_canonical_witness :
    payloadA.Perm payloadB ∧ (payloadA.map Prod.fst).Nodup ∧
    compute_terms_hash shaFn ⟨"create_github_issue", payloadA, 5, "atestfet", 300, 1⟩ =
      compute_terms_hash shaFn ⟨"create_github_issue", payloadB, 5, "atestfet", 300, 1⟩ ∧
    (∀ c ∈ termsJson ⟨"create_github_issue", payloadA, 5, "atestfet", 300, 1⟩,
      isWsChar c = false) :=
  ⟨by decide, by decide,
   terms_hash_deterministic_canonical.1 shaFn "create_github_issue" "atestfet" 5 300 1
     payloadA payloadB (by decide) (by decide),
   terms_hash_deterministic_canonical.2.1 ⟨"create_github_issue", payloadA, 5, "atestfet", 300, 1⟩
     (by decide) (by decide) (by decide)⟩

/-! ### Notes-prefix helper lemmas -/

theorem NotesExtended_refl (store : Store) : NotesExtended store store :=
  fun _ j' h => ⟨j', h, List.prefix_refl _⟩

theorem NotesExtended_update₁ (store : Store) (jid : String) (job : JobRecord)
    (u : JobUpdate) (hjob : get_job store jid = some job)
    (h : ∃ t, u.notes = some t ∧ job.notes.data <+: t.data) :
    NotesExtended store (update_job store jid u) := by
  intro id j' hid
  rw [get_job_update_job] at hid
  by_cases hi : id = jid
  · rw [if_pos hi, hi, hjob] at hid
    obtain ⟨t, ht, hpre⟩ := h
    cases hid
    exact ⟨job, hi ▸ hjob, by simpa [applyUpdate, ht] using hpre⟩
  · rw [if_neg hi] at hid
    exact ⟨j', hid, List.prefix_refl _⟩

theorem NotesExtended_update₂ (store : Store) (jid : String) (job : JobRecord)
    (u₁ u₂ : JobUpdate) (hjob : get_job store jid = some job)
    (h : ∃ t, u₂.notes = some t ∧ job.notes.data <+: t.data) :
    NotesExtended store (update_job (update_job store jid u₁) jid u₂) := by
  intro id j' hid
  rw [get_job_update_job, get_job_update_job] at hid
  by_cases hi : id = jid
  · rw [if_pos hi, if_pos hi, hi, hjob] at hid
    obtain ⟨t, ht, hpre⟩ := h
    cases hid
    exact ⟨job, hi ▸ hjob, by simpa [applyUpdate, ht] using hpre⟩
  · rw [if_neg hi, if_neg hi] at hid
    exact ⟨j', hid, List.prefix_refl _⟩

theorem NotesExtended_update₃ (store : Store) (jid : String) (job : JobRecord)
    (u₁ u₂ u₃ : JobUpdate) (hjob : get_job store jid = some job)
    (h : ∃ t, u₃.notes = some t ∧ job.notes.data <+: t.data) :
    NotesExtended store (update_job (update_job (update_job store jid u₁) jid u₂) jid u₃) := by
  intro id j' hid
  rw [get_job_update_job, get_job_update_job, get_job_update_job] at hid
  by_cases hi : id = jid
  · rw [if_pos hi, if_pos hi, if_pos hi, hi, hjob] at hid
    obtain ⟨t, ht, hpre⟩ := h
    cases hid
    exact ⟨job, hi ▸ hjob, by simpa [applyUpdate, ht] using hpre⟩
  · rw [if_neg hi, if_neg hi, if_neg hi] at hid
    exact ⟨j', hid, List.prefix_refl _⟩

theorem jobs_by_status_mem (store : Store) (st : JobStatus) (addr : String)
    (j : JobRecord) (hwf : storeWF store) (hj : j ∈ get_jobs_by_status store st addr) :
    get_job store j.job_id = some j := by
  simp only [get_jobs_by_status, List.mem_filter] at hj
  obtain ⟨hj, _⟩ := hj
  rcases List.mem_map.mp hj with ⟨⟨k, v⟩, hkv, rfl⟩
  have hk : v.job_id = k := hwf.2 _ hkv
  rw [hk]
  exact get_job_mem_of_nodup _ _ _ hkv hwf.1

theorem sweep_fold_notes (store : Store) (now : Nat) (pending : List JobRecord)
    (acc : Store) (hmem : ∀ j ∈ pending, get_job store j.job_id = some j)
    (hacc : NotesExtended store acc) :
    NotesExtended store (pending.foldl (fun st job =>
      match job.perform_timestamp with
      | some t =>
        if timedelta_seconds (now - t) > 600 then
          update_job st job.job_id
            { status := some .failed, notes := some (job.notes ++ "\\nJob timed out") }
        else st
      | none => st) acc) := by
  induction pending generalizing acc with
  | nil => exact hacc
  | cons job rest ih =>
    have hjob : get_job store job.job_id = some job := hmem job (List.mem_cons_self _ _)
    have hstep : NotesExtended store
        (match job.perform_timestamp with
         | some t =>
           if timedelta_seconds (now - t) > 600 then
             update_job acc job.job_id
               { status := some .failed, notes := some (job.notes ++ "\\nJob timed out") }
           else acc
         | none => acc) := by
      cases job.perform_timestamp with
      | none => exact hacc
      | some t =>
        by_cases htime : timedelta_seconds (now - t) > 600
        · simp only [if_pos htime]
          intro id j' hid
          rw [get_job_update_job] at hid
          by_cases hi : id = job.job_id
          · rw [if_pos hi] at hid
            cases hx : get_job acc id with
            | none => rw [hx] at hid; cases hid
            | some x =>
              rw [hx] at hid
              cases hid
              refine ⟨job, hi ▸ hjob, ?_⟩
              simp [applyUpdate, str_data_append]
          · rw [if_neg hi] at hid
            exact hacc id j' hid
        · simp only [if_neg htime]
          exact hacc
    exact ih _ (fun j hj => hmem j (List.mem_cons_of_mem _ hj)) hstep

/-- Counterexample to claim C8 as stated: the client's quote-acceptance
update *replaces* the notes field.  A job whose stored notes are
`"Quote received from tool_B"` ends up, after `accept_quote`, with notes
`"Quote accepted, perform request sent to tool_B"`, which does not contain
the previous notes as a prefix. -/
theorem accept_quote_discards_notes_cex :
    ((get_job (accept_quote hmFn [("job_1", mkJob .quoted none)] sampleQuote "tool_B"
        "ck" "TS" 5 true "").1 "job_1").map JobRecord.notes
      = some "Quote accepted, perform request sent to tool_B") ∧
    ¬ ((mkJob .quoted none).notes.data <+:
        "Quote accepted, perform request sent to tool_B".data) :=
  ⟨by decide, by decide⟩

/-- Claim C8 (amended): at whole-handler granularity the client's receipt
handler (including verification and payment), the tool's perform and bond
handlers, and the timeout sweep only ever extend the stored notes — the
previously stored notes remain a prefix of the new ones (each handler appends
to the snapshot it fetched at entry).  The exception is quote acceptance: its
updates write a fresh notes string that does not include the prior notes. -/
theorem notes_append_only_amended :
    (∀ (store : Store) (sender : String) (msg : Receipt) (vr : VerificationResult)
       (payRes : PayOutcome) (simEnv : Option String) (clientAddr : String) (now : Nat),
       storeWF store →
       NotesExtended store (handle_receipt store sender msg vr payRes simEnv clientAddr now).1) ∧
    (∀ (sha256hex : List Char → String) (hmacSha256 : String → String → String)
       (toolKey : String) (store : Store) (sender : String) (msg : PerformRequest)
       (execRes : ExecOutcome) (now : Nat) (tsIso : String),
       storeWF store →
       NotesExtended store
         (handle_perform_request sha256hex hmacSha256 toolKey store sender msg execRes now tsIso).1) ∧
    (∀ (store : Store) (sender : String) (msg : BondNotification),
       NotesExtended store (handle_bond_notification store sender msg)) ∧
    (∀ (store : Store) (clientAddr : String) (now : Nat), storeWF store →
       NotesExtended store (check_pending_jobs store clientAddr now)) ∧
    (∀ (hmacSha256 : String → String → String) (store : Store) (quote : QuoteResponse)
       (tool ck ts : String) (now : Nat) (sendOk : Bool) (errMsg : String)
       (job j' : JobRecord),
       get_job store quote.job_id = some job →
       get_job (accept_quote hmacSha256 store quote tool ck ts now sendOk errMsg).1
         quote.job_id = some j' →
       j'.notes = "Quote accepted, perform request sent to " ++ tool ∨
       j'.notes = "Error accepting quote: " ++ errMsg) := by
  refine ⟨?_, ?_, ?_, ?_, ?_⟩
  · intro store sender msg vr payRes simEnv ca now hwf
    cases hjob : get_job store msg.job_id with
    | none => simp only [handle_receipt, hjob]; exact NotesExtended_refl store
    | some job =>
      have hjid : job.job_id = msg.job_id := get_job_wf _ _ _ hwf hjob
      by_cases hsend : job.tool_address ≠ sender
      · simp only [handle_receipt, hjob, if_pos hsend]; exact NotesExtended_refl store
      · simp only [handle_receipt, hjob, if_neg hsend, verify_and_pay, hjid]
        cases hv : vr.verified with
        | true =>
          simp only [if_pos rfl, if_true]
          cases payRes with
          | ok tx =>
            exact NotesExtended_update₃ store msg.job_id job _ _ _ hjob
              ⟨_, rfl, by simp [str_data_append, List.append_assoc]⟩
          | err e =>
            by_cases hsim : simulate_payment_enabled simEnv
            · simp only [hsim, if_true]
              exact NotesExtended_update₃ store msg.job_id job _ _ _ hjob
                ⟨_, rfl, by simp [str_data_append, List.append_assoc]⟩
            · simp only [hsim, if_false, Bool.false_eq_true]
              exact NotesExtended_update₃ store msg.job_id job _ _ _ hjob
                ⟨_, rfl, by simp [str_data_append, List.append_assoc]⟩
        | false =>
          simp only [Bool.false_eq_true, if_false]
          exact NotesExtended_update₃ store msg.job_id job _ _ _ hjob
            ⟨_, rfl, by simp [str_data_append, List.append_assoc]⟩
  · intro sha hm toolKey store sender msg execRes now tsIso hwf
    cases hjob : get_job store msg.job_id with
    | none => simp only [handle_perform_request, hjob]; exact NotesExtended_refl store
    | some job =>
      have hjid : job.job_id = msg.job_id := get_job_wf _ _ _ hwf hjob
      simp only [handle_perform_request, hjob, hjid]
      split_ifs
      · exact NotesExtended_refl store
      · exact NotesExtended_refl store
      · exact NotesExtended_refl store
      · cases execRes with
        | ok issue_url api_url =>
          exact NotesExtended_update₂ store msg.job_id job _ _ hjob
            ⟨_, rfl, by simp [str_data_append, List.append_assoc]⟩
        | err e =>
          exact NotesExtended_update₂ store msg.job_id job _ _ hjob
            ⟨_, rfl, by simp [str_data_append, List.append_assoc]⟩
  · intro store sender msg
    cases hjob : get_job store msg.job_id with
    | none => simp only [handle_bond_notification, hjob]; exact NotesExtended_refl store
    | some job =>
      simp only [handle_bond_notification, hjob]
      split_ifs
      · exact NotesExtended_update₁ store msg.job_id job _ hjob
          ⟨_, rfl, by simp [str_data_append, List.append_assoc]⟩
      · exact NotesExtended_refl store
  · intro store ca now hwf
    refine sweep_fold_notes store now _ store ?_ (NotesExtended_refl store)
    intro j hj
    rcases List.mem_append.mp hj with h | h
    · exact jobs_by_status_mem store _ ca j hwf h
    · exact jobs_by_status_mem store _ ca j hwf h
  · intro hm store quote tool ck ts now sendOk errMsg job j' hjob hid
    simp only [accept_quote, hjob] at hid
    cases sendOk with
    | true =>
      simp only [if_pos rfl, if_true] at hid
      rw [get_job_update_self, hjob] at hid
      cases hid
      left; rfl
    | false =>
      simp only [Bool.false_eq_true, if_false] at hid
      rw [get_job_update_self, get_job_update_self, hjob] at hid
      cases hid
      right; rfl

/-- Witness for the amended C8: the receipt handler extends the stored notes
at a concrete store. -/
theorem notes_append_only_amended_witness :
    NotesExtended [("job_1", mkJob .accepted (some 2))]
      (handle_receipt [("job_1", mkJob .accepted (some 2))] "tool_B" sampleReceiptMsg
        vrTrue (.ok "tx") none "client_A" 9).1 :=
  notes_append_only_amended.1 _ "tool_B" sampleReceiptMsg vrTrue (.ok "tx") none "client_A" 9
    ⟨by decide, by decide⟩

/-! ### Paid-implies-verified helper lemmas -/

theorem piv_update_nonpaid (store : Store) (mid : String) (u : JobUpdate)
    (hpiv : PaidImpliesVerified store) (hs : ∃ s, u.status = some s ∧ s ≠ JobStatus.paid) :
    PaidImpliesVerified (update_job store mid u) := by
  intro id j hj hpaid
  rw [get_job_update_job] at hj
  by_cases hi : id = mid
  · rw [if_pos hi] at hj
    cases hx : get_job store id with
    | none => rw [hx] at hj; cases hj
    | some x =>
      rw [hx] at hj
      cases hj
      obtain ⟨s, hu, hne⟩ := hs
      simp only [applyUpdate, hu, Option.getD_some] at hpaid
      exact absurd hpaid hne
  · rw [if_neg hi] at hj
    exact hpiv id j hj hpaid

theorem piv_cons_nonpaid (store : Store) (k : String) (jr : JobRecord)
    (hpiv : PaidImpliesVerified store) (hne : jr.status ≠ JobStatus.paid) :
    PaidImpliesVerified ((k, jr) :: store) := by
  intro id j hj hpaid
  by_cases hk : k = id
  · simp only [get_job, hk, if_pos rfl] at hj
    cases hj
    exact absurd hpaid hne
  · simp only [get_job, hk, if_neg] at hj
    exact hpiv id j hj hpaid

theorem sweep_fold_piv (now : Nat) (pending : List JobRecord) (acc : Store)
    (hacc : PaidImpliesVerified acc) :
    PaidImpliesVerified (pending.foldl (fun st job =>
      match job.perform_timestamp with
      | some t =>
        if timedelta_seconds (now - t) > 600 then
          update_job st job.job_id
            { status := some .failed, notes := some (job.notes ++ "\\nJob timed out") }
        else st
      | none => st) acc) := by
  induction pending generalizing acc with
  | nil => exact hacc
  | cons job rest ih =>
    have hstep : PaidImpliesVerified
        (match job.perform_timestamp with
         | some t =>
           if timedelta_seconds (now - t) > 600 then
             update_job acc job.job_id
               { status := some .failed, notes := some (job.notes ++ "\\nJob timed out") }
           else acc
         | none => acc) := by
      cases job.perform_timestamp with
      | none => exact hacc
      | some t =>
        by_cases htime : timedelta_seconds (now - t) > 600
        · simp only [if_pos htime]
          exact piv_update_nonpaid acc job.job_id _ hacc ⟨.failed, rfl, by simp⟩
        · simp only [if_neg htime]
          exact hacc
    exact ih _ hstep

/-- The verification-then-settlement update chain of `handle_receipt` /
`verify_and_pay`: first the receipt update (`Completed`), then the
verification-result record, then the settlement update.  It preserves the
paid-implies-verified invariant whenever the settlement status is `Paid` only
with `vr.verified = true` (or is `Failed`). -/
theorem piv_vp_chain (store : Store) (mid jid : String) (u₁ uv ulast : JobUpdate)
    (vr : VerificationResult) (hpiv : PaidImpliesVerified store)
    (h₁ : u₁.status = some JobStatus.completed)
    (hv₁ : uv.verification_result = some vr) (_hv₂ : uv.status = none)
    (hl₁ : ulast.verification_result = none)
    (hl₂ : ulast.status = some JobStatus.paid ∨ ulast.status = some JobStatus.failed)
    (hl₃ : ulast.status = some JobStatus.paid → vr.verified = true) :
    PaidImpliesVerified (update_job (update_job (update_job store mid u₁) jid uv) jid ulast) := by
  intro id j hj hpaid
  rw [get_job_update_job, get_job_update_job] at hj
  by_cases hij : id = jid
  · rw [if_pos hij, if_pos hij] at hj
    cases hb : get_job (update_job store mid u₁) id with
    | none => rw [hb] at hj; cases hj
    | some x =>
      rw [hb] at hj
      cases hj
      rcases hl₂ with hls | hls
      · refine ⟨vr, ?_, hl₃ hls⟩
        simp [applyUpdate, hl₁, hv₁]
      · simp only [applyUpdate, hls, Option.getD_some] at hpaid
        cases hpaid
  · rw [if_neg hij, if_neg hij] at hj
    rw [get_job_update_job] at hj
    by_cases him : id = mid
    · rw [if_pos him] at hj
      cases hx : get_job store id with
      | none => rw [hx] at hj; cases hj
      | some x =>
        rw [hx] at hj
        cases hj
        simp only [applyUpdate, h₁, Option.getD_some] at hpaid
        cases hpaid
    · rw [if_neg him] at hj
      exact hpiv id j hj hpaid

/-- Claim C1: no pay without verify.  Every client-side lifecycle step —
handling a quote response (with auto-accept), handling a receipt (with
verification and payment), or one run of the timeout sweep — preserves the
invariant that a job in status `Paid` has a recorded verification result with
`verified = true`; moreover, in the step's event trace every payment action
(transfer attempt, payment notification, simulated-payment fallback) is
preceded by the recording of a verification result with `verified = true`. -/
theorem no_pay_without_verify :
    ∀ (store : Store) (step : ClientStep), PaidImpliesVerified store →
      PaidImpliesVerified (clientStep store step).1 ∧
      payment_after_verification (clientStep store step).2 = true := by
  intro store step hpiv
  cases step with
  | sweep ca now =>
    exact ⟨sweep_fold_piv now _ store hpiv, rfl⟩
  | quoteResponse hm sender msg orig ca ck ts now sendOk em =>
    simp only [clientStep, handle_quote_response, create_job]
    by_cases hdup : (get_job store msg.job_id).isSome
    · simp only [hdup, if_true]
      exact ⟨hpiv, rfl⟩
    · simp only [hdup, if_false, Bool.false_eq_true]
      set jr : JobRecord :=
        { job_id := msg.job_id, task := msg.task.getD .create_github_issue,
          payload := orig, status := .quoted, client_address := ca,
          tool_address := sender, price := msg.price, bond_amount := msg.bond_required,
          quote_timestamp := some now, perform_timestamp := none,
          completion_timestamp := none, verification_timestamp := none,
          payment_timestamp := none, receipt := none, verification_result := none,
          notes := "Quote received from " ++ sender } with hjr
      have hpiv1 : PaidImpliesVerified ((jr.job_id, jr) :: store) :=
        piv_cons_nonpaid store jr.job_id jr hpiv (by rw [hjr]; simp)
      simp only [accept_quote]
      cases hacc : get_job ((jr.job_id, jr) :: store) msg.job_id with
      | none => exact ⟨hpiv1, rfl⟩
      | some job =>
        cases sendOk with
        | true =>
          refine ⟨?_, rfl⟩
          exact piv_update_nonpaid _ msg.job_id _ hpiv1 ⟨.accepted, rfl, by simp⟩
        | false =>
          refine ⟨?_, rfl⟩
          exact piv_update_nonpaid _ msg.job_id _
            (piv_update_nonpaid _ msg.job_id _ hpiv1 ⟨.accepted, rfl, by simp⟩)
            ⟨.failed, rfl, by simp⟩
  | receipt sender msg vr payRes simEnv ca now =>
    simp only [clientStep, handle_receipt]
    cases hjob : get_job store msg.job_id with
    | none => exact ⟨hpiv, rfl⟩
    | some job =>
      by_cases hsend : job.tool_address ≠ sender
      · simp only [if_pos hsend]
        exact ⟨hpiv, rfl⟩
      · simp only [if_neg hsend, verify_and_pay]
        cases hv : vr.verified with
        | true =>
          simp only [if_pos rfl, if_true]
          cases payRes with
          | ok tx =>
            refine ⟨?_, by simp [payment_after_verification, ppvGo, hv]⟩
            exact piv_vp_chain store msg.job_id job.job_id _ _ _ vr hpiv rfl rfl rfl rfl
              (Or.inl rfl) (fun _ => hv)
          | err e =>
            by_cases hsim : simulate_payment_enabled simEnv
            · simp only [hsim, if_true]
              refine ⟨?_, by simp [payment_after_verification, ppvGo, hv]⟩
              exact piv_vp_chain store msg.job_id job.job_id _ _ _ vr hpiv rfl rfl rfl rfl
                (Or.inl rfl) (fun _ => hv)
            · simp only [hsim, if_false, Bool.false_eq_true]
              refine ⟨?_, by simp [payment_after_verification, ppvGo, hv]⟩
              exact piv_vp_chain store msg.job_id job.job_id _ _ _ vr hpiv rfl rfl rfl rfl
                (Or.inr rfl) (fun h => by cases (Option.some.injEq .. ▸ h : _))
        | false =>
          simp only [Bool.false_eq_true, if_false]
          refine ⟨?_, rfl⟩
          exact piv_vp_chain store msg.job_id job.job_id _ _ _ vr hpiv rfl rfl rfl rfl
            (Or.inr rfl) (fun h => by cases (Option.some.injEq .. ▸ h : _))

/-- Witness for C1 at a concrete store and receipt step. -/
theorem no_pay_without_verify_witness :
    PaidImpliesVerified [("job_1", mkJob .accepted (some 2))] ∧
    PaidImpliesVerified
      (clientStep [("job_1", mkJob .accepted (some 2))]
        (.receipt "tool_B" sampleReceiptMsg vrTrue (.ok "tx") none "client_A" 9)).1 ∧
    payment_after_verification
      (clientStep [("job_1", mkJob .accepted (some 2))]
        (.receipt "tool_B" sampleReceiptMsg vrTrue (.ok "tx") none "client_A" 9)).2 = true := by
  have hpiv : PaidImpliesVerified [("job_1", mkJob .accepted (some 2))] := by
    intro id j hj hpaid
    have hin := get_job_mem _ _ _ hj
    simp only [List.mem_singleton] at hin
    cases hin
    exact absurd hpaid (by decide)
  have h := no_pay_without_verify [("job_1", mkJob .accepted (some 2))]
    (.receipt "tool_B" sampleReceiptMsg vrTrue (.ok "tx") none "client_A" 9) hpiv
  exact ⟨hpiv, h.1, h.2⟩

end Marketplace
